import Mathlib

/-!
Verification of the suncalc Go library (src/main/suncalc.go) against its
natural-language specification.

Modelling conventions for the shallow embedding:

* Go `time.Time` values are modelled by their nanosecond count since the Unix
  epoch, an `Int` (Go stores exactly that, plus a wall-clock location that the
  numeric pipeline never inspects).
* Go `float64` arithmetic is modelled by exact rational arithmetic over `ℚ`.
  Division by zero in `ℚ` is total (`x / 0 = 0`); every claim proved below is
  about code paths whose divisors the claim itself constrains, or is
  independent of the quotient's value.
* The transcendental primitives of Go's `math` package (`Sin`, `Cos`, `Tan`,
  `Asin`, `Acos`, `Atan2`, `Sqrt`) and the two irrational constants `math.Pi`
  and `rad = math.Pi / 180` have no exact rational representation.  The
  embedding is therefore parametrised by a bundle `RealOps` of rational
  stand-ins for them; each source function is translated literally against
  that bundle, and theorems quantify over every bundle (adding, where a claim
  needs them, hypotheses that are true of the real functions, e.g.
  `0 ≤ sqrt d` or `sin x ^ 2 + cos x ^ 2 = 1`).  A statement proved for all
  bundles in particular covers the actual `math` primitives.
* `math.Acos` returns NaN exactly when its argument lies outside `[-1, 1]`;
  the sun-times pipeline is the only place where that NaN can arise and flow
  onward, and it is tracked there with `Option ℚ` (`none` = NaN).
* Conversions `int64(f)` of a `float64` truncate toward zero; `goTrunc`
  models this.  `int64(NaN)` is implementation-defined in Go; on the
  amd64/arm64 targets this repository tests on it yields `math.MinInt64`,
  which is exactly the `1677-09-21T00:12:43.145224192Z` timestamp appearing
  in the repository's own test fixtures; `goNanTimeNanos` is that value.
-/

namespace Suncalc

/-- Truncation toward zero of a rational, as Go's `int64(float64)` conversion
(for values in range). -/
def goTrunc (q : ℚ) : ℤ := if q < 0 then -(⌊-q⌋) else ⌊q⌋

/-- Go's `math.Round`: round to nearest, ties away from zero. -/
def goRound (q : ℚ) : ℚ := if q < 0 then -((⌊-q + 1/2⌋ : ℤ) : ℚ) else ((⌊q + 1/2⌋ : ℤ) : ℚ)

/-- Constant `millyToNano = 1000000` from the source. -/
def millyToNano : ℤ := 1000000

/-- Constant `dayMs = 1000 * 60 * 60 * 24` from the source. -/
def dayMs : ℤ := 1000 * 60 * 60 * 24

/-- Constant `J1970 = 2440588` from the source. -/
def J1970 : ℤ := 2440588

/-- Constant `J2000 = 2451545` from the source. -/
def J2000 : ℤ := 2451545

/-- `timeToUnixMillis(date) = int64(float64(date.UnixNano()) / millyToNano)`:
milliseconds since the Unix epoch, truncated toward zero. -/
def timeToUnixMillis (n : ℤ) : ℤ := goTrunc ((n : ℚ) / (millyToNano : ℚ))

/-- `unixMillisToTime(date) = time.Unix(0, int64(date*millyToNano))`: the
nanosecond count of the reconstructed instant. -/
def unixMillisToTime (ms : ℚ) : ℤ := goTrunc (ms * (millyToNano : ℚ))

/-- `toJulian(date) = float64(timeToUnixMillis(date))/dayMs - 0.5 + J1970`. -/
def toJulian (n : ℤ) : ℚ := (timeToUnixMillis n : ℚ) / (dayMs : ℚ) - 1/2 + (J1970 : ℚ)

/-- `fromJulian(j) = unixMillisToTime((j + 0.5 - J1970) * dayMs)`. -/
def fromJulian (j : ℚ) : ℤ := unixMillisToTime ((j + 1/2 - (J1970 : ℚ)) * (dayMs : ℚ))

/-- `toDays(date) = toJulian(date) - J2000`. -/
def toDays (n : ℤ) : ℚ := toJulian n - (J2000 : ℚ)

/-- Rational stand-ins for Go's `math` transcendental primitives and the two
irrational constants the source uses (`math.Pi` and `rad = math.Pi / 180`).
Each source function is translated literally against such a bundle; theorems
quantify over all bundles, so they cover the actual primitives. -/
structure RealOps where
  sin : ℚ → ℚ
  cos : ℚ → ℚ
  tan : ℚ → ℚ
  asin : ℚ → ℚ
  acos : ℚ → ℚ
  atan2 : ℚ → ℚ → ℚ
  sqrt : ℚ → ℚ
  rad : ℚ
  pi : ℚ

/-- Constant `e = rad * 23.4397` (obliquity of the Earth). -/
def e (ops : RealOps) : ℚ := ops.rad * 23.4397

/-- `rightAscension(l, b)` from the source. -/
def rightAscension (ops : RealOps) (l b : ℚ) : ℚ :=
  ops.atan2 (ops.sin l * ops.cos (e ops) - ops.tan b * ops.sin (e ops)) (ops.cos l)

/-- `declination(l, b)` from the source. -/
def declination (ops : RealOps) (l b : ℚ) : ℚ :=
  ops.asin (ops.sin b * ops.cos (e ops) + ops.cos b * ops.sin (e ops) * ops.sin l)

/-- `azimuth(H, phi, dec)` from the source. -/
def azimuth (ops : RealOps) (H phi dec : ℚ) : ℚ :=
  ops.atan2 (ops.sin H) (ops.cos H * ops.sin phi - ops.tan dec * ops.cos phi)

/-- `altitude(H, phi, dec)` from the source. -/
def altitude (ops : RealOps) (H phi dec : ℚ) : ℚ :=
  ops.asin (ops.sin phi * ops.sin dec + ops.cos phi * ops.cos dec * ops.cos H)

/-- `siderealTime(d, lw)` from the source. -/
def siderealTime (ops : RealOps) (d lw : ℚ) : ℚ :=
  ops.rad * (280.16 + 360.9856235 * d) - lw

/-- `astroRefraction(h)` from the source: altitudes below zero are clamped to
zero before the refraction formula is applied. -/
def astroRefraction (ops : RealOps) (h : ℚ) : ℚ :=
  let h0 := if h < 0 then 0 else h
  0.0002967 / ops.tan (h0 + 0.00312536 / (h0 + 0.08901179))

/-- `solarMeanAnomalyF(d)` from the source. -/
def solarMeanAnomalyF (ops : RealOps) (d : ℚ) : ℚ := ops.rad * (357.5291 + 0.98560028 * d)

/-- `solarMeanAnomalyI(d)` from the source (an alias of `solarMeanAnomalyF`). -/
def solarMeanAnomalyI (ops : RealOps) (d : ℚ) : ℚ := solarMeanAnomalyF ops d

/-- `eclipticLongitude(M)` from the source. -/
def eclipticLongitude (ops : RealOps) (M : ℚ) : ℚ :=
  M + ops.rad * (1.9148 * ops.sin M + 0.02 * ops.sin (2*M) + 0.0003 * ops.sin (3*M))
    + ops.rad * 102.9372 + ops.pi

/-- The event-name enumeration (`DayTimeName` string constants in the source). -/
inductive DayTimeName where
  | sunrise | sunset | sunriseEnd | sunsetStart | dawn | dusk
  | nauticalDawn | nauticalDusk | nightEnd | night
  | goldenHourEnd | goldenHour | solarNoon | nadir
  deriving DecidableEq, Repr

/-- `DayTime` from the source: an event name paired with a bare timestamp
(nanoseconds).  Note there is no validity flag of any kind in this record. -/
structure DayTime where
  morningName : DayTimeName
  time : ℤ
  deriving DecidableEq, Repr

/-- `dayTimeConf` from the source: one row of the fixed configuration table. -/
structure dayTimeConf where
  angle : ℚ
  morningName : DayTimeName
  eveningName : DayTimeName
  deriving DecidableEq, Repr

/-- `coord` from the source. -/
structure coord where
  dec : ℚ
  ra : ℚ
  deriving DecidableEq, Repr

/-- `sunCoords(d)` from the source. -/
def sunCoords (ops : RealOps) (d : ℚ) : coord :=
  let M := solarMeanAnomalyI ops d
  let L := eclipticLongitude ops M
  ⟨declination ops L 0, rightAscension ops L 0⟩

/-- The sun-times configuration table `times` from the source. -/
def times : List dayTimeConf :=
  [⟨-0.833, .sunrise, .sunset⟩,
   ⟨-0.3, .sunriseEnd, .sunsetStart⟩,
   ⟨-6, .dawn, .dusk⟩,
   ⟨-12, .nauticalDawn, .nauticalDusk⟩,
   ⟨-18, .nightEnd, .night⟩,
   ⟨6, .goldenHourEnd, .goldenHour⟩]

/-- Constant `J0 = 0.0009` from the source. -/
def J0 : ℚ := 0.0009

/-- `julianCycle(d, lw)` from the source. -/
def julianCycle (ops : RealOps) (d lw : ℚ) : ℚ := goRound (d - J0 - lw / (2 * ops.pi))

/-- `approxTransit(Ht, lw, n)` from the source. -/
def approxTransit (ops : RealOps) (Ht lw n : ℚ) : ℚ := J0 + (Ht + lw) / (2 * ops.pi) + n

/-- `solarTransitJ(ds, M, L)` from the source. -/
def solarTransitJ (ops : RealOps) (ds M L : ℚ) : ℚ :=
  (J2000 : ℚ) + ds + 0.0053 * ops.sin M - 0.0069 * ops.sin (2*L)

/-- `hourAngle(h, phi, d) = acos((sin h - sin phi * sin d)/(cos phi * cos d))`.
Go's `math.Acos` returns NaN exactly when its argument lies outside `[-1, 1]`
(polar day / polar night for the requested altitude); the NaN outcome is
modelled as `none`. -/
def hourAngle (ops : RealOps) (h phi d : ℚ) : Option ℚ :=
  let x := (ops.sin h - ops.sin phi * ops.sin d) / (ops.cos phi * ops.cos d)
  if x < -1 ∨ 1 < x then none else some (ops.acos x)

/-- `getSetJ(h, lw, phi, dec, n, M, L)` from the source; NaN (an out-of-domain
hour angle) propagates through the float arithmetic, hence through the map. -/
def getSetJ (ops : RealOps) (h lw phi dec n M L : ℚ) : Option ℚ :=
  (hourAngle ops h phi dec).map fun w => solarTransitJ ops (approxTransit ops w lw n) M L

/-- `int64(NaN)` as produced by Go on the amd64/arm64 targets: `math.MinInt64`
nanoseconds, i.e. the `1677-09-21T00:12:43.145224192Z` timestamp that the
repository's own test fixtures show for never-occurring events. -/
def goNanTimeNanos : ℤ := -9223372036854775808

/-- Local `lw := rad * -lng` of `GetTimes`. -/
def gtLw (ops : RealOps) (lng : ℚ) : ℚ := ops.rad * (-lng)

/-- Local `phi := rad * lat` of `GetTimes`. -/
def gtPhi (ops : RealOps) (lat : ℚ) : ℚ := ops.rad * lat

/-- Local `n := julianCycle(d, lw)` of `GetTimes`. -/
def gtN (ops : RealOps) (date : ℤ) (lng : ℚ) : ℚ :=
  julianCycle ops (toDays date) (gtLw ops lng)

/-- Local `ds := approxTransit(0, lw, n)` of `GetTimes`. -/
def gtDs (ops : RealOps) (date : ℤ) (lng : ℚ) : ℚ :=
  approxTransit ops 0 (gtLw ops lng) (gtN ops date lng)

/-- Local `M := solarMeanAnomalyF(ds)` of `GetTimes`. -/
def gtM (ops : RealOps) (date : ℤ) (lng : ℚ) : ℚ := solarMeanAnomalyF ops (gtDs ops date lng)

/-- Local `L := eclipticLongitude(M)` of `GetTimes`. -/
def gtL (ops : RealOps) (date : ℤ) (lng : ℚ) : ℚ := eclipticLongitude ops (gtM ops date lng)

/-- Local `dec := declination(L, 0)` of `GetTimes`. -/
def gtDec (ops : RealOps) (date : ℤ) (lng : ℚ) : ℚ := declination ops (gtL ops date lng) 0

/-- Local `Jnoon := solarTransitJ(ds, M, L)` of `GetTimes`. -/
def gtJnoon (ops : RealOps) (date : ℤ) (lng : ℚ) : ℚ :=
  solarTransitJ ops (gtDs ops date lng) (gtM ops date lng) (gtL ops date lng)

/-- The value `Jset := getSetJ(conf.angle*rad, lw, phi, dec, n, M, L)` computed
by the `GetTimes` loop for one configuration row (`none` = NaN). -/
def gtJset (ops : RealOps) (date : ℤ) (lat lng : ℚ) (c : dayTimeConf) : Option ℚ :=
  getSetJ ops (c.angle * ops.rad) (gtLw ops lng) (gtPhi ops lat) (gtDec ops date lng)
    (gtN ops date lng) (gtM ops date lng) (gtL ops date lng)

/-- One iteration of the `GetTimes` loop: the two `DayTime` entries appended
for a configuration row.  `Jrise := Jnoon - (Jset - Jnoon)`; when `Jset` is
NaN then so is `Jrise`, and `fromJulian(NaN)` embeds the `int64(NaN)`
timestamp in both entries. -/
def sunEventPair (ops : RealOps) (date : ℤ) (lat lng : ℚ) (c : dayTimeConf) : List DayTime :=
  match gtJset ops date lat lng c with
  | some Jset =>
      [⟨c.morningName, fromJulian (gtJnoon ops date lng - (Jset - gtJnoon ops date lng))⟩,
       ⟨c.eveningName, fromJulian Jset⟩]
  | none => [⟨c.morningName, goNanTimeNanos⟩, ⟨c.eveningName, goNanTimeNanos⟩]

/-- `GetTimes(date, lat, lng)` from the source: solar noon and nadir entries
first, then the two entries of each configuration row, unconditionally. -/
def GetTimes (ops : RealOps) (date : ℤ) (lat lng : ℚ) : List DayTime :=
  ⟨.solarNoon, fromJulian (gtJnoon ops date lng)⟩ ::
  ⟨.nadir, fromJulian (gtJnoon ops date lng - 1/2)⟩ ::
  (times.flatMap (sunEventPair ops date lat lng))

/-- A primitive bundle under which every configured altitude threshold is
unreachable: the hour-angle arc-cosine argument evaluates to `-2` for every
row, the polar day / polar night situation. -/
def c1Ops : RealOps :=
  { sin := fun _ => 2, cos := fun _ => 1, tan := fun _ => 0, asin := fun _ => 0,
    acos := fun _ => 0, atan2 := fun _ _ => 0, sqrt := fun _ => 0, rad := 1, pi := 3 }

/-- `moonCoordinates` from the source. -/
structure moonCoordinates where
  rightAscension : ℚ
  declination : ℚ
  distance : ℚ
  deriving DecidableEq, Repr

/-- `moonCoords(d)` from the source: geocentric ecliptic coordinates of the
moon. -/
def moonCoords (ops : RealOps) (d : ℚ) : moonCoordinates :=
  let L := ops.rad * (218.316 + 13.176396 * d)
  let M := ops.rad * (134.963 + 13.064993 * d)
  let F := ops.rad * (93.272 + 13.229350 * d)
  let l := L + ops.rad * 6.289 * ops.sin M
  let b := ops.rad * 5.128 * ops.sin F
  let dt := 385001 - 20905 * ops.cos M
  ⟨rightAscension ops l b, declination ops l b, dt⟩

/-- `MoonPosition` from the source. -/
structure MoonPosition where
  azimuth : ℚ
  altitude : ℚ
  distance : ℚ
  parallacticAngle : ℚ
  deriving DecidableEq, Repr

/-- `GetMoonPosition(date, lat, lng)` from the source; the refraction
correction is applied to the altitude after the parallactic angle is
computed. -/
def GetMoonPosition (ops : RealOps) (date : ℤ) (lat lng : ℚ) : MoonPosition :=
  let lw := ops.rad * (-lng)
  let phi := ops.rad * lat
  let d := toDays date
  let c := moonCoords ops d
  let H := siderealTime ops d lw - c.rightAscension
  let h := altitude ops H phi c.declination
  let pa := ops.atan2 (ops.sin H)
    (ops.tan phi * ops.cos c.declination - ops.sin c.declination * ops.cos H)
  ⟨azimuth ops H phi c.declination, h + astroRefraction ops h, c.distance, pa⟩

/-- `hoursLater(date, h) = date.Add(h * dayMs / 24 * millyToNano)` (nanosecond
arithmetic; `h` is an `int64` count of whole hours). -/
def hoursLater (t h : ℤ) : ℤ := t + h * dayMs / 24 * millyToNano

/-- `MoonTimes` from the source: two bare timestamps and two booleans.  There
is no validity flag for `rise`/`set`; the Go zero `time.Time` value is the
absence marker. -/
structure MoonTimes where
  rise : ℤ
  set : ℤ
  alwaysUp : Bool
  alwaysDown : Bool
  deriving DecidableEq, Repr

/-- The nanosecond count of Go's zero `time.Time` value (January 1, year 1,
00:00:00 UTC), the value `result.rise`/`result.set` keep when no event is
assigned. -/
def goZeroTimeNanos : ℤ := -62135596800000000000

/-- Local `hc := 0.133 * rad` of `GetMoonTimes`. -/
def moonHc (ops : RealOps) : ℚ := 0.133 * ops.rad

/-- The sampled quantity `GetMoonPosition(hoursLater(t, i), lat, lng).altitude - hc`
used by the scan loop. -/
def moonAlt (ops : RealOps) (t : ℤ) (lat lng : ℚ) (i : ℤ) : ℚ :=
  (GetMoonPosition ops (hoursLater t i) lat lng).altitude - moonHc ops

/-- Loop-local `a := (h0+h2)/2 - h1`. -/
def quadA (h0 h1 h2 : ℚ) : ℚ := (h0 + h2) / 2 - h1

/-- Loop-local `b := (h2-h0)/2`. -/
def quadB (h0 h2 : ℚ) : ℚ := (h2 - h0) / 2

/-- Loop-local `xe := -b / (2*a)`. -/
def quadXe (h0 h1 h2 : ℚ) : ℚ := -quadB h0 h2 / (2 * quadA h0 h1 h2)

/-- Loop-local `ye := (a*xe + b)*xe + h1`, the quadratic's vertex value. -/
def quadYe (h0 h1 h2 : ℚ) : ℚ :=
  (quadA h0 h1 h2 * quadXe h0 h1 h2 + quadB h0 h2) * quadXe h0 h1 h2 + h1

/-- Loop-local discriminant `d := b*b - 4*a*h1`. -/
def quadD (h0 h1 h2 : ℚ) : ℚ := quadB h0 h2 * quadB h0 h2 - 4 * quadA h0 h1 h2 * h1

/-- Loop-local `dx := sqrt(d) / (abs(a)*2)`. -/
def quadDx (ops : RealOps) (h0 h1 h2 : ℚ) : ℚ :=
  ops.sqrt (quadD h0 h1 h2) / (|quadA h0 h1 h2| * 2)

/-- Loop-local `x1 := xe - dx` before the in-range reassignment. -/
def quadX1raw (ops : RealOps) (h0 h1 h2 : ℚ) : ℚ :=
  quadXe h0 h1 h2 - quadDx ops h0 h1 h2

/-- Loop-local `x2 := xe + dx`. -/
def quadX2 (ops : RealOps) (h0 h1 h2 : ℚ) : ℚ :=
  quadXe h0 h1 h2 + quadDx ops h0 h1 h2

/-- Loop-local `roots` count: when `d >= 0`, one for each of `x1`, `x2` with
absolute value at most 1; zero when `d < 0`. -/
def quadRoots (ops : RealOps) (h0 h1 h2 : ℚ) : ℕ :=
  if 0 ≤ quadD h0 h1 h2 then
    (if |quadX1raw ops h0 h1 h2| ≤ 1 then 1 else 0) +
    (if |quadX2 ops h0 h1 h2| ≤ 1 then 1 else 0)
  else 0

/-- Loop-local `x1` after the reassignment `if x1 < -1 { x1 = x2 }`. -/
def quadX1 (ops : RealOps) (h0 h1 h2 : ℚ) : ℚ :=
  if quadX1raw ops h0 h1 h2 < -1 then quadX2 ops h0 h1 h2 else quadX1raw ops h0 h1 h2

/-- The root-classification part of the scan loop body (the updated
`(rise, set)` pair): one root is a rise when the interval's starting altitude
`h0` was negative, else a set; with two roots the vertex sign `ye < 0` puts
the set at `x1` and the rise at `x2`, else the reverse. -/
def moonQuad (ops : RealOps) (i : ℤ) (h0 h1 h2 rise set : ℚ) : ℚ × ℚ :=
  if quadRoots ops h0 h1 h2 = 1 then
    if h0 < 0 then ((i : ℚ) + quadX1 ops h0 h1 h2, set)
    else (rise, (i : ℚ) + quadX1 ops h0 h1 h2)
  else if quadRoots ops h0 h1 h2 = 2 then
    if quadYe h0 h1 h2 < 0 then
      ((i : ℚ) + quadX2 ops h0 h1 h2, (i : ℚ) + quadX1 ops h0 h1 h2)
    else
      ((i : ℚ) + quadX1 ops h0 h1 h2, (i : ℚ) + quadX2 ops h0 h1 h2)
  else (rise, set)

/-- The values carried out of one iteration of the scan loop. -/
structure StepOut where
  h2 : ℚ
  ye : ℚ
  rise : ℚ
  set : ℚ
  deriving DecidableEq, Repr

/-- One full iteration of the scan loop at hour offset `i`: sample the two new
altitudes, fit the quadratic, classify any in-range roots. -/
def moonStep (ops : RealOps) (t : ℤ) (lat lng : ℚ) (i : ℤ) (h0 rise set : ℚ) : StepOut :=
  let h1 := moonAlt ops t lat lng i
  let h2 := moonAlt ops t lat lng (i + 1)
  ⟨h2, quadYe h0 h1 h2, (moonQuad ops i h0 h1 h2 rise set).1, (moonQuad ops i h0 h1 h2 rise set).2⟩

/-- The values the scan loop leaves behind for the result assembly. -/
structure MoonScan where
  rise : ℚ
  set : ℚ
  ye : ℚ
  deriving DecidableEq, Repr

/-- The scan loop of `GetMoonTimes` over a list of hour offsets, threading
`(h0, ye, rise, set)` and breaking as soon as both `rise` and `set` are
nonzero.  The loop is structurally recursive on the offset list, hence always
terminates. -/
def moonScanFrom (ops : RealOps) (t : ℤ) (lat lng : ℚ) :
    List ℤ → ℚ → ℚ → ℚ → ℚ → MoonScan
  | [], _, ye, rise, set => ⟨rise, set, ye⟩
  | i :: rest, h0, _, rise, set =>
    let s := moonStep ops t lat lng i h0 rise set
    if s.rise ≠ 0 ∧ s.set ≠ 0 then ⟨s.rise, s.set, s.ye⟩
    else moonScanFrom ops t lat lng rest s.h2 s.ye s.rise s.set

/-- The hour offsets visited by `for i := 0; i <= 24; i += 2`. -/
def moonHours : List ℤ := [0, 2, 4, 6, 8, 10, 12, 14, 16, 18, 20, 22, 24]

/-- The scan outcome of `GetMoonTimes`: offsets 0,2,...,24, starting altitude
sampled at the window start, `ye`, `rise`, `set` initially zero. -/
def moonScanResult (ops : RealOps) (t : ℤ) (lat lng : ℚ) : MoonScan :=
  moonScanFrom ops t lat lng moonHours (moonAlt ops t lat lng 0) 0 0 0

/-- `GetMoonTimes(date, lat, lng, inUTC)` from the source.  Go first truncates
`date` to midnight of the local or UTC calendar day; the embedding takes that
window-start instant `t` directly (the claims quantify over every instant, so
every reachable window start is covered).  A rise/set is published only when
the scan value is nonzero, via `hoursLater(t, int64(...))`; otherwise the
field keeps the Go zero-time value. -/
def GetMoonTimes (ops : RealOps) (t : ℤ) (lat lng : ℚ) : MoonTimes :=
  let sc := moonScanResult ops t lat lng
  { rise := if sc.rise ≠ 0 then hoursLater t (goTrunc sc.rise) else goZeroTimeNanos
    set := if sc.set ≠ 0 then hoursLater t (goTrunc sc.set) else goZeroTimeNanos
    alwaysUp := if sc.rise = 0 ∧ sc.set = 0 then (if sc.ye > 0 then true else false) else false
    alwaysDown := if sc.rise = 0 ∧ sc.set = 0 then (if sc.ye > 0 then false else true) else false }

/-- A primitive bundle under which the moon's computed altitude stays far
above the horizon for the whole scanned day (an always-up day): the sampled
altitude is an exact quadratic in the hour offset with negative loop
discriminant in every interval, so the scan finds no rise and no set. -/
def c2Ops : RealOps :=
  { sin := fun _ => 0, cos := fun q => q * q + 1, tan := fun _ => 1, asin := fun q => q,
    acos := fun q => q, atan2 := fun y _ => y, sqrt := fun _ => 0, rad := 1, pi := 3 }

/-- The window-start instant 2000-01-01T12:00:00Z (exactly J2000) in
nanoseconds. -/
def c2T : ℤ := 946728000000000000

/-- The value `moonAlt c2Ops c2T 0 0 n` in closed form: a quadratic in the
hour offset, everywhere at least `0.867`. -/
def c2hv (n : ℤ) : ℚ := (280.16 + 360.9856235 * ((n : ℚ) / 24)) ^ 2 + 0.8672967

/-- `MoonIllumination` from the source. -/
structure MoonIllumination where
  fraction : ℚ
  phase : ℚ
  angle : ℚ
  deriving DecidableEq, Repr

/-- The constant `sdist = 149598000.` (km, Earth–Sun distance) from the
source. -/
def sdist : ℚ := 149598000

/-- The arc-cosine argument inside `GetMoonIllumination`: the cosine of the
Sun–Moon angular separation by the spherical law of cosines.  It equals 1
exactly when the two computed directions coincide (an exact conjunction). -/
def giU (ops : RealOps) (d : ℚ) : ℚ :=
  ops.sin (sunCoords ops d).dec * ops.sin (moonCoords ops d).declination +
    ops.cos (sunCoords ops d).dec * ops.cos (moonCoords ops d).declination *
    ops.cos ((sunCoords ops d).ra - (moonCoords ops d).rightAscension)

/-- Local `phi` of `GetMoonIllumination`: the Sun–Moon angular separation by
the spherical law of cosines. -/
def giPhi (ops : RealOps) (d : ℚ) : ℚ := ops.acos (giU ops d)

/-- Local `inc` of `GetMoonIllumination`: the phase angle. -/
def giInc (ops : RealOps) (d : ℚ) : ℚ :=
  ops.atan2 (sdist * ops.sin (giPhi ops d))
    ((moonCoords ops d).distance - sdist * ops.cos (giPhi ops d))

/-- Local `angle` of `GetMoonIllumination`: the bright-limb position angle. -/
def giAngle (ops : RealOps) (d : ℚ) : ℚ :=
  ops.atan2
    (ops.cos (sunCoords ops d).dec *
      ops.sin ((sunCoords ops d).ra - (moonCoords ops d).rightAscension))
    (ops.sin (sunCoords ops d).dec * ops.cos (moonCoords ops d).declination -
      ops.cos (sunCoords ops d).dec * ops.sin (moonCoords ops d).declination *
      ops.cos ((sunCoords ops d).ra - (moonCoords ops d).rightAscension))

/-- `GetMoonIllumination(date)` from the source; `phaseAngle` is `-1` when
`angle < 0` and `1` otherwise. -/
def GetMoonIllumination (ops : RealOps) (date : ℤ) : MoonIllumination :=
  let d := toDays date
  ⟨(1 + ops.cos (giInc ops d)) / 2,
   0.5 + 0.5 * giInc ops d * (if giAngle ops d < 0 then -1 else 1) / ops.pi,
   giAngle ops d⟩

/-- Facts about the real transcendental functions that the range claims rest
on: the Pythagorean identity, boundedness of cosine, the `[0, π]` range of
arc-cosine on `[-1, 1]` with strict positivity below 1 (real `acos u = 0`
only at `u = 1`), strict positivity of sine on the open interval `(0, π)`,
the values of sine and cosine at `π`, the open range `(0, π)` of `atan2` for
a positive first argument, `atan2(0, x) = 0` for positive `x`, and positivity
of `π`.  All are true of Go's `math` primitives (in exact-real semantics). -/
structure TrigFacts (ops : RealOps) : Prop where
  pyth : ∀ x, ops.sin x ^ 2 + ops.cos x ^ 2 = 1
  cos_le : ∀ x, |ops.cos x| ≤ 1
  acos_range : ∀ u, -1 ≤ u → u ≤ 1 → 0 ≤ ops.acos u ∧ ops.acos u ≤ ops.pi
  acos_pos : ∀ u, -1 ≤ u → u < 1 → 0 < ops.acos u
  sin_pos : ∀ x, 0 < x → x < ops.pi → 0 < ops.sin x
  sin_pi : ops.sin ops.pi = 0
  cos_pi : ops.cos ops.pi = -1
  atan2_pos : ∀ y x, 0 < y → 0 < ops.atan2 y x ∧ ops.atan2 y x < ops.pi
  atan2_zero : ∀ x, 0 < x → ops.atan2 0 x = 0
  pi_pos : 0 < ops.pi

/-- A primitive bundle satisfying all of `TrigFacts`, used to witness the
illumination range theorem at a concrete instant (its separation cosine there
is `109/125 < 1`). -/
def c10Ops : RealOps :=
  { sin := fun x => if x = 22/7 then 0 else 3/5,
    cos := fun x => if x = 22/7 then -1 else 4/5,
    tan := fun _ => 0, asin := fun _ => 0, acos := fun _ => 1,
    atan2 := fun y _ => if 0 < y then 1 else 0,
    sqrt := fun _ => 0, rad := 0, pi := 22/7 }

/-- The all-zero primitive bundle, used by concrete witnesses. -/
def zeroOps : RealOps :=
  { sin := fun _ => 0, cos := fun _ => 0, tan := fun _ => 0, asin := fun _ => 0,
    acos := fun _ => 0, atan2 := fun _ _ => 0, sqrt := fun _ => 0, rad := 0, pi := 0 }

/-- A primitive bundle under which every hour angle is in domain (argument 0),
used to witness the sun-event symmetry. -/
def oneOps : RealOps :=
  { sin := fun _ => 0, cos := fun _ => 1, tan := fun _ => 0, asin := fun _ => 0,
    acos := fun _ => 0, atan2 := fun _ _ => 0, sqrt := fun _ => 0, rad := 0, pi := 0 }

theorem goTrunc_intCast (m : ℤ) : goTrunc (m : ℚ) = m := by
  unfold goTrunc
  split
  · rw [← Int.cast_neg, Int.floor_intCast]; ring
  · rw [Int.floor_intCast]

theorem goTrunc_intCast_mul (m k : ℤ) : goTrunc ((m : ℚ) * (k : ℚ)) = m * k := by
  have h : ((m : ℚ) * (k : ℚ)) = ((m * k : ℤ) : ℚ) := by push_cast; ring
  rw [h, goTrunc_intCast]

/-- C6: for every instant `t` (given by its nanosecond count), converting to a
Julian day and back reproduces `t` truncated to millisecond precision: the
result is exactly `timeToUnixMillis t` (the forward conversion's millisecond
truncation) scaled back to nanoseconds, and no other loss occurs. -/
theorem fromJulian_toJulian (n : ℤ) :
    fromJulian (toJulian n) = timeToUnixMillis n * millyToNano := by
  unfold fromJulian toJulian unixMillisToTime
  have hd : (dayMs : ℚ) ≠ 0 := by norm_num [dayMs]
  have hms : ((timeToUnixMillis n : ℚ) / (dayMs : ℚ) - 1/2 + (J1970 : ℚ) + 1/2 - (J1970 : ℚ))
      * (dayMs : ℚ) = (timeToUnixMillis n : ℚ) := by
    have h1 : ((timeToUnixMillis n : ℚ) / (dayMs : ℚ) - 1/2 + (J1970 : ℚ) + 1/2 - (J1970 : ℚ))
        = (timeToUnixMillis n : ℚ) / (dayMs : ℚ) := by ring
    rw [h1, div_mul_cancel₀ _ hd]
  rw [hms, goTrunc_intCast_mul]

/-- C5: for every bundle of primitives and every input, `GetTimes` always
produces the `solarNoon` and `nadir` events as its first two entries — they
are never absent and do not depend on any altitude threshold — and the
Julian dates they are built from differ by exactly `0.5`. -/
theorem solarNoon_nadir_always (ops : RealOps) (date : ℤ) (lat lng : ℚ) :
    (GetTimes ops date lat lng).take 2 =
      [⟨.solarNoon, fromJulian (gtJnoon ops date lng)⟩,
       ⟨.nadir, fromJulian (gtJnoon ops date lng - 1/2)⟩] ∧
    gtJnoon ops date lng - (gtJnoon ops date lng - 1/2) = 1/2 := by
  constructor
  · rfl
  · ring

/-- C7: for every bundle, every input and every configuration row whose hour
angle is defined, the morning Julian date computed by the `GetTimes` loop is
`Jnoon - (Jset - Jnoon)`, i.e. morning and evening events are symmetric about
the solar transit, and the loop's entries are built from exactly those dates. -/
theorem sun_events_symmetric (ops : RealOps) (date : ℤ) (lat lng : ℚ) (c : dayTimeConf)
    (Jset : ℚ) (hJ : gtJset ops date lat lng c = some Jset) :
    sunEventPair ops date lat lng c =
      [⟨c.morningName, fromJulian (gtJnoon ops date lng - (Jset - gtJnoon ops date lng))⟩,
       ⟨c.eveningName, fromJulian Jset⟩] ∧
    gtJnoon ops date lng - (gtJnoon ops date lng - (Jset - gtJnoon ops date lng)) =
      Jset - gtJnoon ops date lng := by
  constructor
  · unfold sunEventPair
    rw [hJ]
  · ring

/-- C1: refutation on the code.  At an input whose `nightEnd`/`night`
threshold is never reached (the arc-cosine argument falls outside `[-1,1]`),
`GetTimes` does NOT report the events as absent: it still returns all 14
entries, and the morning and evening entries of the unreachable row carry the
`int64(NaN)` garbage timestamp (`1677-09-21T00:12:43Z`, `math.MinInt64`
nanoseconds) embedded in the result — exactly the domain-error value the
claim requires the implementation to keep out of the result. -/
theorem getTimes_embeds_nan :
    gtJset c1Ops 0 0 0 ⟨-18, .nightEnd, .night⟩ = none ∧
    (⟨.nightEnd, goNanTimeNanos⟩ : DayTime) ∈ GetTimes c1Ops 0 0 0 ∧
    (⟨.night, goNanTimeNanos⟩ : DayTime) ∈ GetTimes c1Ops 0 0 0 ∧
    (GetTimes c1Ops 0 0 0).length = 14 := by
  have hnone : ∀ c : dayTimeConf, gtJset c1Ops 0 0 0 c = none := by
    intro c
    unfold gtJset getSetJ hourAngle
    norm_num [c1Ops]
  refine ⟨hnone _, ?_, ?_, ?_⟩ <;> simp [GetTimes, times, sunEventPair, hnone]

/-- C3: for every bundle of primitives and every input, the `MoonTimes`
returned by `GetMoonTimes` has `alwaysUp` and `alwaysDown` never both true;
both are false whenever the scan found a rise or a set; and exactly one of
{rise-or-set found, alwaysUp, alwaysDown} holds. -/
theorem moon_flags_exclusive (ops : RealOps) (t : ℤ) (lat lng : ℚ) :
    ¬((GetMoonTimes ops t lat lng).alwaysUp = true ∧
      (GetMoonTimes ops t lat lng).alwaysDown = true) ∧
    (((moonScanResult ops t lat lng).rise ≠ 0 ∨ (moonScanResult ops t lat lng).set ≠ 0) →
      (GetMoonTimes ops t lat lng).alwaysUp = false ∧
      (GetMoonTimes ops t lat lng).alwaysDown = false) ∧
    ((((moonScanResult ops t lat lng).rise ≠ 0 ∨ (moonScanResult ops t lat lng).set ≠ 0) ∧
        (GetMoonTimes ops t lat lng).alwaysUp = false ∧
        (GetMoonTimes ops t lat lng).alwaysDown = false) ∨
     ((moonScanResult ops t lat lng).rise = 0 ∧ (moonScanResult ops t lat lng).set = 0 ∧
        (GetMoonTimes ops t lat lng).alwaysUp = true ∧
        (GetMoonTimes ops t lat lng).alwaysDown = false) ∨
     ((moonScanResult ops t lat lng).rise = 0 ∧ (moonScanResult ops t lat lng).set = 0 ∧
        (GetMoonTimes ops t lat lng).alwaysUp = false ∧
        (GetMoonTimes ops t lat lng).alwaysDown = true)) := by
  by_cases hr : (moonScanResult ops t lat lng).rise = 0 <;>
    by_cases hs : (moonScanResult ops t lat lng).set = 0 <;>
    by_cases hy : (moonScanResult ops t lat lng).ye > 0 <;>
    simp [GetMoonTimes, hr, hs, hy]

theorem abs_goTrunc_sub_lt_one (q : ℚ) : |(goTrunc q : ℚ) - q| < 1 := by
  unfold goTrunc
  split
  · push_cast
    rw [abs_sub_lt_iff]
    constructor
    · have := Int.lt_floor_add_one (-q)
      linarith
    · have := Int.floor_le (-q)
      linarith
  · rw [abs_sub_lt_iff]
    constructor
    · have := Int.floor_le q
      linarith
    · have := Int.lt_floor_add_one q
      linarith

theorem hoursLater_eq (t h : ℤ) : hoursLater t h = t + h * 3600000000000 := by
  unfold hoursLater dayMs millyToNano
  have h1 : h * (1000 * 60 * 60 * 24) = h * 3600000 * 24 := by ring
  rw [h1, Int.mul_ediv_cancel _ (by norm_num)]
  ring

/-- C4: whenever the scan reports a rise (or a set), the published instant is
a whole number of hours after the window start `t`: the solver's fractional
root value is truncated to an integer hour count (within distance 1 of the
root) before the timestamp is built, so moon rise/set times never carry
sub-hour precision. -/
theorem moon_times_whole_hours (ops : RealOps) (t : ℤ) (lat lng : ℚ) :
    ((moonScanResult ops t lat lng).rise ≠ 0 →
      ∃ n : ℤ, (GetMoonTimes ops t lat lng).rise = t + n * 3600000000000 ∧
        |(n : ℚ) - (moonScanResult ops t lat lng).rise| < 1) ∧
    ((moonScanResult ops t lat lng).set ≠ 0 →
      ∃ n : ℤ, (GetMoonTimes ops t lat lng).set = t + n * 3600000000000 ∧
        |(n : ℚ) - (moonScanResult ops t lat lng).set| < 1) := by
  constructor
  · intro hr
    refine ⟨goTrunc (moonScanResult ops t lat lng).rise, ?_, ?_⟩
    · simp only [GetMoonTimes, if_pos hr]
      exact hoursLater_eq _ _
    · exact abs_goTrunc_sub_lt_one _
  · intro hs
    refine ⟨goTrunc (moonScanResult ops t lat lng).set, ?_, ?_⟩
    · simp only [GetMoonTimes, if_pos hs]
      exact hoursLater_eq _ _
    · exact abs_goTrunc_sub_lt_one _

/-- C8: the scan loop's root classification.  `x1raw ≤ x2` always (the first
root temporally is `x1raw`); with exactly one in-range root, `quadX1` is that
root and it is a rise precisely when the interval's starting altitude `h0`
was negative, else a set; with two in-range roots, a negative vertex value
`ye` makes the first root the set and the second the rise, and a nonnegative
vertex value the reverse. -/
theorem moon_root_classification (ops : RealOps) (i : ℤ) (h0 h1 h2 rise set : ℚ)
    (hsq : 0 ≤ ops.sqrt (quadD h0 h1 h2)) :
    quadX1raw ops h0 h1 h2 ≤ quadX2 ops h0 h1 h2 ∧
    (quadRoots ops h0 h1 h2 = 1 →
      |quadX1 ops h0 h1 h2| ≤ 1 ∧
      (h0 < 0 → moonQuad ops i h0 h1 h2 rise set = ((i : ℚ) + quadX1 ops h0 h1 h2, set)) ∧
      (¬ h0 < 0 → moonQuad ops i h0 h1 h2 rise set = (rise, (i : ℚ) + quadX1 ops h0 h1 h2))) ∧
    (quadRoots ops h0 h1 h2 = 2 →
      quadX1 ops h0 h1 h2 = quadX1raw ops h0 h1 h2 ∧
      (quadYe h0 h1 h2 < 0 →
        moonQuad ops i h0 h1 h2 rise set =
          ((i : ℚ) + quadX2 ops h0 h1 h2, (i : ℚ) + quadX1raw ops h0 h1 h2)) ∧
      (¬ quadYe h0 h1 h2 < 0 →
        moonQuad ops i h0 h1 h2 rise set =
          ((i : ℚ) + quadX1raw ops h0 h1 h2, (i : ℚ) + quadX2 ops h0 h1 h2))) := by
  have hdx : 0 ≤ quadDx ops h0 h1 h2 := by
    unfold quadDx
    exact div_nonneg hsq (by positivity)
  have hord : quadX1raw ops h0 h1 h2 ≤ quadX2 ops h0 h1 h2 := by
    unfold quadX1raw quadX2
    linarith
  refine ⟨hord, ?_, ?_⟩
  · intro hroots
    have hcase : (|quadX1raw ops h0 h1 h2| ≤ 1 ∧ ¬ |quadX2 ops h0 h1 h2| ≤ 1) ∨
        (¬ |quadX1raw ops h0 h1 h2| ≤ 1 ∧ |quadX2 ops h0 h1 h2| ≤ 1) := by
      unfold quadRoots at hroots
      by_cases hd : 0 ≤ quadD h0 h1 h2 <;>
        by_cases ha : |quadX1raw ops h0 h1 h2| ≤ 1 <;>
        by_cases hb : |quadX2 ops h0 h1 h2| ≤ 1 <;>
        simp [hd, ha, hb] at hroots ⊢
    have hx1 : quadX1 ops h0 h1 h2 = (if |quadX1raw ops h0 h1 h2| ≤ 1
        then quadX1raw ops h0 h1 h2 else quadX2 ops h0 h1 h2) ∧
        |quadX1 ops h0 h1 h2| ≤ 1 := by
      rcases hcase with ⟨ha, hb⟩ | ⟨ha, hb⟩
      · have : ¬ quadX1raw ops h0 h1 h2 < -1 := by
          rw [abs_le] at ha
          linarith [ha.1]
        rw [quadX1, if_neg this, if_pos ha]
        exact ⟨rfl, ha⟩
      · have : quadX1raw ops h0 h1 h2 < -1 := by
          by_contra hge
          rw [abs_le] at hb
          rw [not_le, ← not_le] at ha
          exact ha (abs_le.mpr ⟨le_of_not_lt hge, le_trans hord hb.2⟩)
        rw [quadX1, if_pos this, if_neg ha]
        exact ⟨rfl, hb⟩
    refine ⟨hx1.2, ?_, ?_⟩
    · intro hh0
      rw [moonQuad, if_pos hroots, if_pos hh0]
    · intro hh0
      rw [moonQuad, if_pos hroots, if_neg hh0]
  · intro hroots
    have hboth : |quadX1raw ops h0 h1 h2| ≤ 1 := by
      unfold quadRoots at hroots
      by_cases hd : 0 ≤ quadD h0 h1 h2 <;>
        by_cases ha : |quadX1raw ops h0 h1 h2| ≤ 1 <;>
        by_cases hb : |quadX2 ops h0 h1 h2| ≤ 1 <;>
        simp [hd, ha, hb] at hroots ⊢
    have hne1 : ¬ quadRoots ops h0 h1 h2 = 1 := by
      rw [hroots]
      norm_num
    have hx1 : quadX1 ops h0 h1 h2 = quadX1raw ops h0 h1 h2 := by
      rw [abs_le] at hboth
      rw [quadX1, if_neg (by linarith [hboth.1])]
    refine ⟨hx1, ?_, ?_⟩
    · intro hye
      rw [moonQuad, if_neg hne1, if_pos hroots, if_pos hye, hx1]
    · intro hye
      rw [moonQuad, if_neg hne1, if_pos hroots, if_neg hye, hx1]

/-- C9: the scan loop visits exactly the thirteen fixed hour offsets
0,2,...,24 and terminates structurally; moreover it stops early: as soon as
one iteration leaves both a nonzero rise and a nonzero set, the remaining
offsets (arbitrary here) are not examined and the scan returns that
iteration's values. -/
theorem moon_scan_bounded (ops : RealOps) (t : ℤ) (lat lng : ℚ) (i : ℤ) (rest : List ℤ)
    (h0 ye rise set : ℚ)
    (hr : (moonStep ops t lat lng i h0 rise set).rise ≠ 0)
    (hs : (moonStep ops t lat lng i h0 rise set).set ≠ 0) :
    moonHours = [0, 2, 4, 6, 8, 10, 12, 14, 16, 18, 20, 22, 24] ∧
    moonHours.length = 13 ∧
    moonScanFrom ops t lat lng (i :: rest) h0 ye rise set =
      ⟨(moonStep ops t lat lng i h0 rise set).rise,
       (moonStep ops t lat lng i h0 rise set).set,
       (moonStep ops t lat lng i h0 rise set).ye⟩ := by
  refine ⟨rfl, rfl, ?_⟩
  rw [moonScanFrom]
  exact if_pos ⟨hr, hs⟩

theorem c2days (n : ℤ) : toDays (hoursLater c2T n) = (n : ℚ) / 24 := by
  rw [hoursLater_eq]
  have h2 : timeToUnixMillis (c2T + n * 3600000000000) = 946728000000 + n * 3600000 := by
    unfold timeToUnixMillis millyToNano c2T
    have hcast : ((946728000000000000 + n * 3600000000000 : ℤ) : ℚ) / ((1000000 : ℤ) : ℚ)
        = ((946728000000 + n * 3600000 : ℤ) : ℚ) := by
      push_cast
      field_simp
      ring
    rw [hcast, goTrunc_intCast]
  unfold toDays toJulian
  rw [h2]
  unfold dayMs J1970 J2000
  push_cast
  field_simp
  ring

theorem c2alt (n : ℤ) : moonAlt c2Ops c2T 0 0 n = c2hv n := by
  simp only [moonAlt, GetMoonPosition, moonCoords, moonHc, altitude, rightAscension,
    declination, siderealTime, astroRefraction, e, c2Ops, c2days]
  unfold c2hv
  ring

theorem c2roots0 (h0 h1 h2 : ℚ) (hd : quadD h0 h1 h2 < 0) :
    quadRoots c2Ops h0 h1 h2 = 0 := by
  unfold quadRoots
  rw [if_neg (not_le.mpr hd)]

theorem c2scan_skip (i j : ℤ) (rest : List ℤ) (h0 ye : ℚ) (hj : j = i + 1)
    (hd : quadD h0 (c2hv i) (c2hv j) < 0) :
    moonScanFrom c2Ops c2T 0 0 (i :: rest) h0 ye 0 0 =
      moonScanFrom c2Ops c2T 0 0 rest (c2hv j) (quadYe h0 (c2hv i) (c2hv j)) 0 0 := by
  subst hj
  rw [moonScanFrom]
  simp only [moonStep, c2alt]
  have hroots := c2roots0 h0 (c2hv i) (c2hv (i + 1)) hd
  simp [moonQuad, hroots]

/-- C2: refutation on the code.  On a day with no moon rise and no moon set,
`GetMoonTimes` publishes the Go zero `time.Time` value in both the `rise` and
`set` fields — absence is encoded by that sentinel timestamp (the struct has
no validity flag), so a caller cannot distinguish "event did not occur" from
a genuine timestamp equal to the zero value. -/
theorem moon_absence_is_zero_sentinel :
    GetMoonTimes c2Ops c2T 0 0 = ⟨goZeroTimeNanos, goZeroTimeNanos, true, false⟩ := by
  have hd0 : quadD (c2hv 0) (c2hv 0) (c2hv 1) < 0 := by norm_num [quadD, quadB, quadA, c2hv]
  have hd1 : quadD (c2hv 1) (c2hv 2) (c2hv 3) < 0 := by norm_num [quadD, quadB, quadA, c2hv]
  have hd3 : quadD (c2hv 3) (c2hv 4) (c2hv 5) < 0 := by norm_num [quadD, quadB, quadA, c2hv]
  have hd5 : quadD (c2hv 5) (c2hv 6) (c2hv 7) < 0 := by norm_num [quadD, quadB, quadA, c2hv]
  have hd7 : quadD (c2hv 7) (c2hv 8) (c2hv 9) < 0 := by norm_num [quadD, quadB, quadA, c2hv]
  have hd9 : quadD (c2hv 9) (c2hv 10) (c2hv 11) < 0 := by norm_num [quadD, quadB, quadA, c2hv]
  have hd11 : quadD (c2hv 11) (c2hv 12) (c2hv 13) < 0 := by
    norm_num [quadD, quadB, quadA, c2hv]
  have hd13 : quadD (c2hv 13) (c2hv 14) (c2hv 15) < 0 := by
    norm_num [quadD, quadB, quadA, c2hv]
  have hd15 : quadD (c2hv 15) (c2hv 16) (c2hv 17) < 0 := by
    norm_num [quadD, quadB, quadA, c2hv]
  have hd17 : quadD (c2hv 17) (c2hv 18) (c2hv 19) < 0 := by
    norm_num [quadD, quadB, quadA, c2hv]
  have hd19 : quadD (c2hv 19) (c2hv 20) (c2hv 21) < 0 := by
    norm_num [quadD, quadB, quadA, c2hv]
  have hd21 : quadD (c2hv 21) (c2hv 22) (c2hv 23) < 0 := by
    norm_num [quadD, quadB, quadA, c2hv]
  have hd23 : quadD (c2hv 23) (c2hv 24) (c2hv 25) < 0 := by
    norm_num [quadD, quadB, quadA, c2hv]
  have hye : quadYe (c2hv 23) (c2hv 24) (c2hv 25) = 0.8672967 := by
    norm_num [quadYe, quadXe, quadA, quadB, c2hv]
  have hscan : moonScanResult c2Ops c2T 0 0 = ⟨0, 0, 0.8672967⟩ := by
    unfold moonScanResult moonHours
    rw [c2alt 0]
    rw [c2scan_skip 0 1 _ _ _ (by norm_num) hd0]
    rw [c2scan_skip 2 3 _ _ _ (by norm_num) hd1]
    rw [c2scan_skip 4 5 _ _ _ (by norm_num) hd3]
    rw [c2scan_skip 6 7 _ _ _ (by norm_num) hd5]
    rw [c2scan_skip 8 9 _ _ _ (by norm_num) hd7]
    rw [c2scan_skip 10 11 _ _ _ (by norm_num) hd9]
    rw [c2scan_skip 12 13 _ _ _ (by norm_num) hd11]
    rw [c2scan_skip 14 15 _ _ _ (by norm_num) hd13]
    rw [c2scan_skip 16 17 _ _ _ (by norm_num) hd15]
    rw [c2scan_skip 18 19 _ _ _ (by norm_num) hd17]
    rw [c2scan_skip 20 21 _ _ _ (by norm_num) hd19]
    rw [c2scan_skip 22 23 _ _ _ (by norm_num) hd21]
    rw [c2scan_skip 24 25 _ _ _ (by norm_num) hd23]
    rw [moonScanFrom, hye]
  unfold GetMoonTimes
  rw [hscan]
  norm_num

/-- C10: for every primitive bundle satisfying the real-function range facts
and every instant at which the computed Sun–Moon separation cosine stays
strictly below 1 — i.e. the two computed directions do not coincide exactly,
which holds at every real instant since the ephemerides' minimal geocentric
separation is far from zero — the illuminated fraction is computed as
`(1+cos(inc))/2` and lies in `[0,1]`, and the phase is computed as
`0.5 + 0.5·inc·sign(angle)/π` with the Sun–Moon distance fixed at
149,598,000 km and lies in the half-open range `[0,1)`. -/
theorem moon_illumination_ranges (ops : RealOps) (hops : TrigFacts ops) (date : ℤ)
    (hsep : giU ops (toDays date) < 1) :
    sdist = 149598000 ∧
    (GetMoonIllumination ops date).fraction = (1 + ops.cos (giInc ops (toDays date))) / 2 ∧
    (GetMoonIllumination ops date).phase = 0.5 + 0.5 * giInc ops (toDays date) *
      (if giAngle ops (toDays date) < 0 then -1 else 1) / ops.pi ∧
    0 ≤ (GetMoonIllumination ops date).fraction ∧
    (GetMoonIllumination ops date).fraction ≤ 1 ∧
    0 ≤ (GetMoonIllumination ops date).phase ∧
    (GetMoonIllumination ops date).phase < 1 := by
  set d := toDays date with hd
  set sa := ops.sin (sunCoords ops d).dec with hsa
  set sb := ops.sin (moonCoords ops d).declination with hsb
  set ca := ops.cos (sunCoords ops d).dec with hca
  set cb := ops.cos (moonCoords ops d).declination with hcb
  set cc := ops.cos ((sunCoords ops d).ra - (moonCoords ops d).rightAscension) with hcc
  have habs : |sa| * |sb| + |ca| * |cb| ≤ 1 := by
    have h1 := hops.pyth (sunCoords ops d).dec
    have h2 := hops.pyth (moonCoords ops d).declination
    rw [← hsa, ← hca] at h1
    rw [← hsb, ← hcb] at h2
    nlinarith [sq_nonneg (|sa| * |cb| - |ca| * |sb|), sq_abs sa, sq_abs sb, sq_abs ca,
      sq_abs cb, abs_nonneg sa, abs_nonneg sb, abs_nonneg ca, abs_nonneg cb,
      mul_nonneg (abs_nonneg sa) (abs_nonneg sb), mul_nonneg (abs_nonneg ca) (abs_nonneg cb)]
  have hU : giU ops d = sa * sb + ca * cb * cc := by
    rw [giU, ← hsa, ← hsb, ← hca, ← hcb, ← hcc]
  have huabs : |giU ops d| ≤ 1 := by
    have h3 : |cc| ≤ 1 := by
      rw [hcc]
      exact hops.cos_le _
    rw [hU]
    calc |sa * sb + ca * cb * cc| ≤ |sa * sb| + |ca * cb * cc| := abs_add _ _
      _ = |sa| * |sb| + |ca| * |cb| * |cc| := by rw [abs_mul, abs_mul, abs_mul]
      _ ≤ |sa| * |sb| + |ca| * |cb| * 1 := by
          have : |ca| * |cb| * |cc| ≤ |ca| * |cb| * 1 :=
            mul_le_mul_of_nonneg_left h3 (mul_nonneg (abs_nonneg ca) (abs_nonneg cb))
          linarith
      _ = |sa| * |sb| + |ca| * |cb| := by ring
      _ ≤ 1 := habs
  have hu := abs_le.mp huabs
  have hphi_pos : 0 < giPhi ops d := hops.acos_pos _ hu.1 hsep
  have hphi_le : giPhi ops d ≤ ops.pi := (hops.acos_range _ hu.1 hu.2).2
  have hinc : 0 ≤ giInc ops d ∧ giInc ops d < ops.pi := by
    rcases lt_or_eq_of_le hphi_le with hlt | heq
    · have hsings : 0 < ops.sin (giPhi ops d) := hops.sin_pos _ hphi_pos hlt
      have hy : 0 < sdist * ops.sin (giPhi ops d) :=
        mul_pos (by norm_num [sdist]) hsings
      have h := hops.atan2_pos (sdist * ops.sin (giPhi ops d))
        ((moonCoords ops d).distance - sdist * ops.cos (giPhi ops d)) hy
      rw [giInc]
      exact ⟨le_of_lt h.1, h.2⟩
    · have hdist : (364096 : ℚ) ≤ (moonCoords ops d).distance := by
        have h := abs_le.mp (hops.cos_le (ops.rad * (134.963 + 13.064993 * d)))
        simp only [moonCoords]
        linarith [h.2]
      have h0 : giInc ops d = 0 := by
        rw [giInc, heq, hops.sin_pi, hops.cos_pi, mul_zero]
        apply hops.atan2_zero
        have hm1 : sdist * (-1 : ℚ) = -sdist := by ring
        rw [hm1]
        have hs : (0 : ℚ) < sdist := by norm_num [sdist]
        linarith
      rw [h0]
      exact ⟨le_refl 0, hops.pi_pos⟩
  have hr0 : 0 ≤ giInc ops d / ops.pi := div_nonneg hinc.1 (le_of_lt hops.pi_pos)
  have hr1 : giInc ops d / ops.pi < 1 := (div_lt_one hops.pi_pos).mpr hinc.2
  have hcosinc := abs_le.mp (hops.cos_le (giInc ops d))
  refine ⟨rfl, rfl, rfl, ?_, ?_, ?_, ?_⟩
  · show 0 ≤ (1 + ops.cos (giInc ops d)) / 2
    linarith
  · show (1 + ops.cos (giInc ops d)) / 2 ≤ 1
    linarith
  · show 0 ≤ 0.5 + 0.5 * giInc ops d * (if giAngle ops d < 0 then -1 else 1) / ops.pi
    split_ifs
    · have : 0.5 + 0.5 * giInc ops d * (-1) / ops.pi = 0.5 - 0.5 * (giInc ops d / ops.pi) := by
        ring
      rw [this]
      linarith
    · have : 0.5 + 0.5 * giInc ops d * 1 / ops.pi = 0.5 + 0.5 * (giInc ops d / ops.pi) := by
        ring
      rw [this]
      linarith
  · show 0.5 + 0.5 * giInc ops d * (if giAngle ops d < 0 then -1 else 1) / ops.pi < 1
    split_ifs
    · have : 0.5 + 0.5 * giInc ops d * (-1) / ops.pi = 0.5 - 0.5 * (giInc ops d / ops.pi) := by
        ring
      rw [this]
      linarith
    · have : 0.5 + 0.5 * giInc ops d * 1 / ops.pi = 0.5 + 0.5 * (giInc ops d / ops.pi) := by
        ring
      rw [this]
      linarith

theorem trigFactsWitness : TrigFacts c10Ops := by
  constructor
  · intro x
    simp only [c10Ops]
    split_ifs <;> norm_num
  · intro x
    simp only [c10Ops]
    split_ifs <;> norm_num [abs_le]
  · intro u h1 h2
    norm_num [c10Ops]
  · intro u h1 h2
    norm_num [c10Ops]
  · intro x hx1 hx2
    simp only [c10Ops] at hx2 ⊢
    rw [if_neg (ne_of_lt hx2)]
    norm_num
  · norm_num [c10Ops]
  · norm_num [c10Ops]
  · intro y x hy
    simp only [c10Ops]
    rw [if_pos hy]
    norm_num
  · intro x hx
    simp only [c10Ops]
    norm_num
  · norm_num [c10Ops]

/-- Witness for C10: the range theorem applied at a concrete bundle and
instant whose separation cosine evaluates strictly below 1. -/
theorem moon_illumination_ranges_w :
    0 ≤ (GetMoonIllumination c10Ops 0).fraction ∧
    (GetMoonIllumination c10Ops 0).fraction ≤ 1 ∧
    0 ≤ (GetMoonIllumination c10Ops 0).phase ∧
    (GetMoonIllumination c10Ops 0).phase < 1 := by
  have hsep : giU c10Ops (toDays 0) < 1 := by
    norm_num [giU, sunCoords, moonCoords, rightAscension, declination, solarMeanAnomalyI,
      solarMeanAnomalyF, eclipticLongitude, e, toDays, toJulian, timeToUnixMillis, goTrunc,
      dayMs, J1970, J2000, millyToNano, c10Ops]
  have h := moon_illumination_ranges c10Ops trigFactsWitness 0 hsep
  exact ⟨h.2.2.2.1, h.2.2.2.2.1, h.2.2.2.2.2.1, h.2.2.2.2.2.2⟩

theorem zeroOpsAlt (n : ℤ) : moonAlt zeroOps 0 0 0 n = 0 := by
  norm_num [moonAlt, GetMoonPosition, moonCoords, moonHc, altitude, rightAscension,
    declination, siderealTime, astroRefraction, e, zeroOps]

theorem zeroOpsStep (i : ℤ) : moonStep zeroOps 0 0 0 i 0 0 0 = ⟨0, 0, (i : ℚ), (i : ℚ)⟩ := by
  simp only [moonStep, zeroOpsAlt]
  norm_num [moonQuad, quadRoots, quadD, quadA, quadB, quadXe, quadYe, quadDx,
    quadX1raw, quadX2, quadX1, zeroOps]

theorem zeroOpsStepNeg : moonStep zeroOps 0 0 0 2 (-1) 0 0 = ⟨0, 1/8, 5/2, 5/2⟩ := by
  simp only [moonStep, zeroOpsAlt]
  norm_num [moonQuad, quadRoots, quadD, quadA, quadB, quadXe, quadYe, quadDx,
    quadX1raw, quadX2, quadX1, zeroOps, abs_le]

theorem zeroOpsScan : moonScanResult zeroOps 0 0 0 = ⟨2, 2, 0⟩ := by
  simp [moonScanResult, moonHours, moonScanFrom, zeroOpsStep, zeroOpsAlt]

/-- Witness for C3: the flag invariant applied at a concrete bundle and
input. -/
theorem moon_flags_exclusive_w :
    ¬((GetMoonTimes zeroOps 0 0 0).alwaysUp = true ∧
      (GetMoonTimes zeroOps 0 0 0).alwaysDown = true) :=
  (moon_flags_exclusive zeroOps 0 0 0).1

/-- Witness for C4: a concrete scan that finds a rise, with the whole-hours
result applied to it. -/
theorem moon_times_whole_hours_w :
    ∃ n : ℤ, (GetMoonTimes zeroOps 0 0 0).rise = 0 + n * 3600000000000 ∧
      |(n : ℚ) - (moonScanResult zeroOps 0 0 0).rise| < 1 :=
  (moon_times_whole_hours zeroOps 0 0 0).1 (by rw [zeroOpsScan]; norm_num)

/-- Witness for C8: the classification theorem applied at a concrete bundle
and interval. -/
theorem moon_root_classification_w :
    quadX1raw zeroOps 0 0 0 ≤ quadX2 zeroOps 0 0 0 :=
  (moon_root_classification zeroOps 0 0 0 0 0 0 (by norm_num [zeroOps])).1

/-- Witness for C9: a concrete step that finds both events, so the scan stops
without examining the remaining offsets. -/
theorem moon_scan_bounded_w :
    moonHours = [0, 2, 4, 6, 8, 10, 12, 14, 16, 18, 20, 22, 24] ∧
    moonHours.length = 13 ∧
    moonScanFrom zeroOps 0 0 0 (2 :: [99]) (-1) 0 0 0 =
      ⟨(moonStep zeroOps 0 0 0 2 (-1) 0 0).rise,
       (moonStep zeroOps 0 0 0 2 (-1) 0 0).set,
       (moonStep zeroOps 0 0 0 2 (-1) 0 0).ye⟩ :=
  moon_scan_bounded zeroOps 0 0 0 2 [99] (-1) 0 0 0
    (by rw [zeroOpsStepNeg]; norm_num)
    (by rw [zeroOpsStepNeg]; norm_num)

/-- Witness for C7: the symmetry theorem applied at a concrete bundle, input
and configuration row whose hour angle is defined. -/
theorem sun_events_symmetric_w :
    sunEventPair oneOps 0 0 0 ⟨-0.833, .sunrise, .sunset⟩ =
      [⟨DayTimeName.sunrise,
        fromJulian (gtJnoon oneOps 0 0 - (2440587.0009 - gtJnoon oneOps 0 0))⟩,
       ⟨DayTimeName.sunset, fromJulian 2440587.0009⟩] ∧
    gtJnoon oneOps 0 0 - (gtJnoon oneOps 0 0 - (2440587.0009 - gtJnoon oneOps 0 0)) =
      2440587.0009 - gtJnoon oneOps 0 0 :=
  sun_events_symmetric oneOps 0 0 0 ⟨-0.833, .sunrise, .sunset⟩ 2440587.0009
    (by norm_num [gtJset, getSetJ, hourAngle, approxTransit, solarTransitJ, gtLw, gtPhi,
      gtDec, gtN, gtM, gtL, gtDs, julianCycle, goRound, declination, solarMeanAnomalyF,
      eclipticLongitude, toDays, toJulian, timeToUnixMillis, goTrunc, J0, J2000, J1970,
      dayMs, millyToNano, e, oneOps])

end Suncalc


